import Mathlib

/-
Verification of the coordinate-extraction subsystem of the Greeka Corfu
hotel crawler (crawler.py).  The Python functions
GreekaHotelCrawler.convert_dms_to_decimal (lines 186-216) and
GreekaHotelCrawler.extract_coordinates_from_map (lines 218-383) are embedded
shallowly: BeautifulSoup query results become fields of a `Soup` record,
the specific regular expressions of the source become dedicated scanner
functions over character lists (each deterministic because in every pattern
used the piece following a greedy class cannot match a class character),
Python floats become exact rationals (`ℚ`), and fallible operations return
`Option`.
-/

set_option maxHeartbeats 1000000

namespace Greeka

/-- ASCII apostrophe (the minute mark in DMS strings), via its code point. -/
def apostChar : Char := Char.ofNat 39

/-- ASCII double quote (the second mark in DMS strings). -/
def quoteChar : Char := Char.ofNat 34

/-- Unicode prime U+2032, accepted by the page-text DMS pattern as a minute mark. -/
def primeChar : Char := Char.ofNat 8242

/-- Unicode double prime U+2033, accepted by the page-text DMS pattern as a second mark. -/
def dprimeChar : Char := Char.ofNat 8243

/-- ASCII digit test: the regex class `\d` as it behaves on this crawler's ASCII inputs. -/
def isDigitC (c : Char) : Bool := 48 ≤ c.toNat && c.toNat ≤ 57

/-- Whitespace test: the regex class `\s` and Python `str.strip` whitespace (ASCII part). -/
def isWsC (c : Char) : Bool :=
  c.toNat = 32 || c.toNat = 9 || c.toNat = 10 || c.toNat = 13 || c.toNat = 11 || c.toNat = 12

/-- The regex character class `[0-9.-]`. -/
def isNumC (c : Char) : Bool := isDigitC c || c = '.' || c = '-'

/-- The regex character class `[\d.]`. -/
def isDigDotC (c : Char) : Bool := isDigitC c || c = '.'

/-- The regex character class `[,\s]`. -/
def isCommaWsC (c : Char) : Bool := c = ',' || isWsC c

/-- Python `str.strip()`: drop leading and trailing whitespace. -/
def stripL (cs : List Char) : List Char :=
  ((cs.dropWhile isWsC).reverse.dropWhile isWsC).reverse

/-- Numeric value of a captured digit run, as Python `int()` reads it. -/
def digitsVal (l : List Char) : Nat := l.foldl (fun a c => a * 10 + (c.toNat - 48)) 0

/-- Match a literal character sequence at the current position, returning the rest. -/
def litM : List Char → List Char → Option (List Char)
  | [], cs => some cs
  | _ :: _, [] => none
  | p :: ps, c :: cs => if c = p then litM ps cs else none

/-- Greedy nonempty character-class group `X+`: the captured run and the rest.
Faithful to the regexes of the source because in every pattern used below the
piece that follows such a group cannot match a character of the class, so the
greedy match needs no backtracking. -/
def clsM (p : Char → Bool) (cs : List Char) : Option (List Char × List Char) :=
  let g := cs.takeWhile p
  if g.isEmpty then none else some (g, cs.dropWhile p)

/-- The regex piece `\s*`. -/
def wsStar (cs : List Char) : List Char := cs.dropWhile isWsC

/-- Match one character out of a set. -/
def oneOfM (s : List Char) : List Char → Option (Char × List Char)
  | [] => none
  | c :: cs => if s.contains c then some (c, cs) else none

/-- Optional single character out of a set (the regex piece `[...]?`, greedy). -/
def optOfM (s : List Char) (cs : List Char) : List Char :=
  match cs with
  | c :: rest => if s.contains c then rest else cs
  | [] => cs

/-- Optional leading sign of a Python float literal: the flag says whether the
value is negated, the list is the remainder. -/
def pySign : List Char → Bool × List Char
  | [] => (false, [])
  | c :: r => if c = '-' then (true, r) else if c = '+' then (false, r) else (false, c :: r)

/-- Sign factor of a parsed float literal. -/
def pySignVal (b : Bool) : ℚ := if b then -1 else 1

/-- Python `float()` restricted to the literal forms occurring in this program:
optional sign, then digits with at most one decimal point and at least one
digit (exponents, underscores, inf and nan do not occur in the crawler's
inputs and are not modelled).  Returns the exact rational value; `none`
models the `ValueError` that `float` raises otherwise. -/
def pyFloatL (cs : List Char) : Option ℚ :=
  let s := pySign cs
  let ip := s.2.takeWhile isDigitC
  let r1 := s.2.dropWhile isDigitC
  match r1 with
  | [] =>
    if ip.isEmpty then none else some (pySignVal s.1 * (digitsVal ip : ℚ))
  | c :: r2 =>
    if c = '.' then
      let fd := r2.takeWhile isDigitC
      let r3 := r2.dropWhile isDigitC
      if r3.isEmpty && (!ip.isEmpty || !fd.isEmpty) then
        some (pySignVal s.1 *
          ((digitsVal ip : ℚ) + (digitsVal fd : ℚ) / (10 : ℚ) ^ fd.length))
      else none
    else none

/-- Python `float()` on a string, with the surrounding-whitespace tolerance. -/
def pyFloat? (s : String) : Option ℚ := pyFloatL (stripL s.data)

/-- Lines 196-203: `re.match` of the converter's anchored pattern
`(\d+)°(\d+)'([\d.]+)\"([NSEW])`, returning degrees, minutes, the raw
seconds capture and the hemisphere letter. -/
def dmsMatch (cs : List Char) : Option (Nat × Nat × List Char × Char) :=
  match clsM isDigitC cs with
  | none => none
  | some (ds, r1) =>
    match litM ['°'] r1 with
    | none => none
    | some r2 =>
      match clsM isDigitC r2 with
      | none => none
      | some (ms, r3) =>
        match litM [apostChar] r3 with
        | none => none
        | some r4 =>
          match clsM isDigDotC r4 with
          | none => none
          | some (ss, r5) =>
            match litM [quoteChar] r5 with
            | none => none
            | some r6 =>
              match oneOfM ['N', 'S', 'E', 'W'] r6 with
              | none => none
              | some (h, _) => some (digitsVal ds, digitsVal ms, ss, h)

/-- Lines 205-212: the conversion core, `degrees + minutes/60 + seconds/3600`,
negated when the hemisphere is S or W. -/
def dmsDecimal (degrees minutes : ℕ) (seconds : ℚ) (direction : Char) : ℚ :=
  let decimal : ℚ := (degrees : ℚ) + (minutes : ℚ) / 60 + seconds / 3600
  if direction = 'S' ∨ direction = 'W' then -decimal else decimal

/-- Lines 186-216: `GreekaHotelCrawler.convert_dms_to_decimal`.  Strips the
input, matches the DMS pattern, reads the captures (`int` cannot fail on a
digit run; `float` on the seconds capture can, and its `ValueError` is caught
and turned into `None`). -/
def convert_dms_to_decimal (s : String) : Option ℚ :=
  match dmsMatch (stripL s.data) with
  | none => none
  | some (d, m, ss, dir) =>
    match pyFloatL ss with
    | none => none
    | some sec => some (dmsDecimal d m sec dir)

/-- The DMS latitude string of the spec's first test vector, 39 deg 40 min 22.7 sec N. -/
def dmsLatStr : String :=
  String.mk ['3', '9', '°', '4', '0', apostChar, '2', '2', '.', '7', quoteChar, 'N']

/-- The DMS longitude string of the spec's second test vector, 19 deg 42 min 59.5 sec E. -/
def dmsLonStr : String :=
  String.mk ['1', '9', '°', '4', '2', apostChar, '5', '9', '.', '5', quoteChar, 'E']

/-- A DMS string with an out-of-range minute value, 39 deg 75 min 10.0 sec N. -/
def dmsBadMinStr : String :=
  String.mk ['3', '9', '°', '7', '5', apostChar, '1', '0', '.', '0', quoteChar, 'N']

/-- A DMS string with a malformed seconds field (two decimal points). -/
def dmsBadSecStr : String :=
  String.mk ['3', '9', '°', '4', '0', apostChar, '1', '.', '2', '.', '3', quoteChar, 'N']

/-- A DMS string with no hemisphere letter. -/
def dmsNoHemStr : String :=
  String.mk ['3', '9', '°', '4', '0', apostChar, '2', '2', '.', '7', quoteChar]

/-- Number of digits of a natural number, collected most-significant first. -/
def natDigitsAux : Nat → Nat → List Char → List Char
  | 0, _, acc => acc
  | f + 1, n, acc =>
    if n = 0 then acc else natDigitsAux f (n / 10) (Char.ofNat (48 + n % 10) :: acc)

/-- Decimal digit characters of a natural number. -/
def natDigits (n : Nat) : List Char :=
  if n = 0 then ['0'] else natDigitsAux n n []

/-- Decimal rendering of an integer, as Python `str(int)` prints it. -/
def intStr (n : Int) : String :=
  String.mk ((if n < 0 then ['-'] else []) ++ natDigits n.natAbs)

/-- Fractional decimal digits of a rational in `[0, 1)`, up to the fuel bound. -/
def fracDigitsAux : Nat → ℚ → List Char
  | 0, _ => []
  | f + 1, r =>
    if r = 0 then []
    else
      let r10 := r * 10
      Char.ofNat (48 + (Int.toNat r10.floor % 10)) :: fracDigitsAux f (r10 - (r10.floor : ℚ))

/-- Character rendering of a float value: sign, integer digits, a decimal point,
then the fractional digits (at least one, as Python always prints one). -/
def ratFloatChars (q : ℚ) : List Char :=
  let a := |q|
  let fd := fracDigitsAux 17 (a - (a.floor : ℚ))
  (if q < 0 then ['-'] else []) ++ natDigits (Int.toNat a.floor) ++
    '.' :: (if fd.isEmpty then ['0'] else fd)

/-- Python `str()` of a float.  Python prints the shortest decimal that round-trips
through the binary double; this model prints the exact rational to at most 17
fractional digits.  The two agree on the short decimal fractions this crawler
manipulates, and every rendering is nonempty, which is all the theorems below
use about this function. -/
def ratFloatStr (q : ℚ) : String := String.mk (ratFloatChars q)

/-- Try a position matcher at every position of the text, leftmost first: the
semantics of `re.search` for the deterministic patterns modelled here. -/
def searchSome {α : Type} (f : List Char → Option α) : List Char → Option α
  | [] => f []
  | c :: cs =>
    match f (c :: cs) with
    | some r => some r
    | none => searchSome f cs

/-- Python substring membership `pat in s`. -/
def containsSub (pat cs : List Char) : Bool := (searchSome (litM pat) cs).isSome

/-- One DMS token of the page-text pattern of line 232:
`\d+°\d+['′][\d.]+[\"″]H` for a hemisphere set `H`; returns the exact
matched characters (to be re-parsed by the converter) and the rest. -/
def dmsTokenAt (hems : List Char) (cs : List Char) : Option (List Char × List Char) :=
  match clsM isDigitC cs with
  | none => none
  | some (d1, r1) =>
    match litM ['°'] r1 with
    | none => none
    | some r2 =>
      match clsM isDigitC r2 with
      | none => none
      | some (d2, r3) =>
        match oneOfM [apostChar, primeChar] r3 with
        | none => none
        | some (mk1, r4) =>
          match clsM isDigDotC r4 with
          | none => none
          | some (sd, r5) =>
            match oneOfM [quoteChar, dprimeChar] r5 with
            | none => none
            | some (mk2, r6) =>
              match oneOfM hems r6 with
              | none => none
              | some (h, r7) =>
                some (d1 ++ '°' :: d2 ++ mk1 :: sd ++ [mk2, h], r7)

/-- Line 232: the full DMS-pair pattern, a north-south token, whitespace, then an
east-west token; captures are the two matched token substrings. -/
def dmsPairAt (cs : List Char) : Option (String × String) :=
  match dmsTokenAt ['N', 'S'] cs with
  | none => none
  | some (t1, r1) =>
    match clsM isWsC r1 with
    | none => none
    | some (_, r2) =>
      match dmsTokenAt ['E', 'W'] r2 with
      | none => none
      | some (t2, _) => some (String.mk t1, String.mk t2)

/-- Two `[0-9.-]+` captures separated by a literal (the shared shape of the five
map-embed URL conventions of lines 269-275). -/
def numPairSep (sep : List Char) (cs : List Char) : Option (List Char × List Char) :=
  match clsM isNumC cs with
  | none => none
  | some (g1, r1) =>
    match litM sep r1 with
    | none => none
    | some r2 =>
      match clsM isNumC r2 with
      | none => none
      | some (g2, _) => some (g1, g2)

/-- Line 270: the convention `[?&]q=lat,lon`. -/
def patQAt (cs : List Char) : Option (List Char × List Char) :=
  match oneOfM ['?', '&'] cs with
  | none => none
  | some (_, r) =>
    match litM ['q', '='] r with
    | none => none
    | some r2 => numPairSep [','] r2

/-- Line 271: the convention `!2dlon!3dlat` (groups are lon then lat). -/
def pat2d3dAt (cs : List Char) : Option (List Char × List Char) :=
  match litM ['!', '2', 'd'] cs with
  | none => none
  | some r => numPairSep ['!', '3', 'd'] r

/-- Line 272: the convention `center=lat,lon`. -/
def patCenterUrlAt (cs : List Char) : Option (List Char × List Char) :=
  match litM ['c', 'e', 'n', 't', 'e', 'r', '='] cs with
  | none => none
  | some r => numPairSep [','] r

/-- Line 273: the convention `[?&]ll=lat,lon`. -/
def patLLAt (cs : List Char) : Option (List Char × List Char) :=
  match oneOfM ['?', '&'] cs with
  | none => none
  | some (_, r) =>
    match litM ['l', 'l', '='] r with
    | none => none
    | some r2 => numPairSep [','] r2

/-- Line 274: the convention `@lat,lon`. -/
def patAtSignAt (cs : List Char) : Option (List Char × List Char) :=
  match litM ['@'] cs with
  | none => none
  | some r => numPairSep [','] r

/-- The literal `google.com/maps` of line 267. -/
def googleMapsLit : List Char := ("google.com/maps").data

/-- The literal `maps.google` of line 267. -/
def mapsGoogleLit : List Char := ("maps.google").data

/-- Lines 264-283: handling of a single iframe source URL.  Only sources
containing one of the two Google-Maps substrings are inspected; the five URL
conventions are tried in their listed order, and only the `!2d...!3d...`
convention swaps its groups (it encodes longitude first). -/
def iframeScan (src : String) : Option (String × String) :=
  let cs := src.data
  if containsSub googleMapsLit cs || containsSub mapsGoogleLit cs then
    match searchSome patQAt cs with
    | some (a, b) => some (String.mk a, String.mk b)
    | none =>
      match searchSome pat2d3dAt cs with
      | some (a, b) => some (String.mk b, String.mk a)
      | none =>
        match searchSome patCenterUrlAt cs with
        | some (a, b) => some (String.mk a, String.mk b)
        | none =>
          match searchSome patLLAt cs with
          | some (a, b) => some (String.mk a, String.mk b)
          | none =>
            match searchSome patAtSignAt cs with
            | some (a, b) => some (String.mk a, String.mk b)
            | none => none
  else none

/-- The JSON-LD marker literal of line 292. -/
def geoMarkerLit : List Char := ("\"@type\":\"GeoCoordinates\"").data

/-- Lines 293-294: a quoted JSON-LD field, `\"name\"\s*:\s*\"([0-9.-]+)\"`. -/
def quotedFieldAt (name : List Char) (cs : List Char) : Option (List Char) :=
  match litM (quoteChar :: (name ++ [quoteChar])) cs with
  | none => none
  | some r1 =>
    match litM [':'] (wsStar r1) with
    | none => none
    | some r3 =>
      match litM [quoteChar] (wsStar r3) with
      | none => none
      | some r5 =>
        match clsM isNumC r5 with
        | none => none
        | some (g, r6) =>
          match litM [quoteChar] r6 with
          | none => none
          | some _ => some g

/-- Line 311: the pattern `center\s*[:=]\s*\[\s*([0-9.-]+)\s*,\s*([0-9.-]+)\s*\]`. -/
def centerArrAt (cs : List Char) : Option (List Char × List Char) :=
  match litM ['c', 'e', 'n', 't', 'e', 'r'] cs with
  | none => none
  | some r1 =>
    match oneOfM [':', '='] (wsStar r1) with
    | none => none
    | some (_, r2) =>
      match litM ['['] (wsStar r2) with
      | none => none
      | some r3 =>
        match clsM isNumC (wsStar r3) with
        | none => none
        | some (g1, r4) =>
          match litM [','] (wsStar r4) with
          | none => none
          | some r5 =>
            match clsM isNumC (wsStar r5) with
            | none => none
            | some (g2, r6) =>
              match litM [']'] (wsStar r6) with
              | none => none
              | some _ => some (g1, g2)

/-- Line 312: the pattern `LatLng\s*\(\s*([0-9.-]+)\s*,\s*([0-9.-]+)\s*\)`. -/
def latLngCallAt (cs : List Char) : Option (List Char × List Char) :=
  match litM ['L', 'a', 't', 'L', 'n', 'g'] cs with
  | none => none
  | some r1 =>
    match litM ['('] (wsStar r1) with
    | none => none
    | some r2 =>
      match clsM isNumC (wsStar r2) with
      | none => none
      | some (g1, r3) =>
        match litM [','] (wsStar r3) with
        | none => none
        | some r4 =>
          match clsM isNumC (wsStar r4) with
          | none => none
          | some (g2, r5) =>
            match litM [')'] (wsStar r5) with
            | none => none
            | some _ => some (g1, g2)

/-- Lines 307-310: one key-value pattern, `key[\"']?\s*[:=]\s*([0-9.-]+)`. -/
def kvAt (key : List Char) (cs : List Char) : Option (List Char) :=
  match litM key cs with
  | none => none
  | some r1 =>
    match oneOfM [':', '='] (wsStar (optOfM [quoteChar, apostChar] r1)) with
    | none => none
    | some (_, r2) =>
      match clsM isNumC (wsStar r2) with
      | none => none
      | some (g, _) => some g

/-- Line 325: the alternation of the `lat` and `latitude` key-value patterns,
tried in that order at each position. -/
def latKVAt (cs : List Char) : Option (List Char) :=
  match kvAt ['l', 'a', 't'] cs with
  | some g => some g
  | none => kvAt ['l', 'a', 't', 'i', 't', 'u', 'd', 'e'] cs

/-- Line 326: the alternation of the `lng` and `longitude` key-value patterns. -/
def lngKVAt (cs : List Char) : Option (List Char) :=
  match kvAt ['l', 'n', 'g'] cs with
  | some g => some g
  | none => kvAt ['l', 'o', 'n', 'g', 'i', 't', 'u', 'd', 'e'] cs

/-- Lines 288-332: the per-script chain of Method 4 — the JSON-LD rule (guarded
by the marker substring and requiring both quoted fields), then the
center-array rule, then the constructor-call rule, then the independent
key-value rule requiring both keys in this same script. -/
def scriptScan (content : String) : Option (String × String) :=
  let cs := content.data
  let jsonLd :=
    if containsSub geoMarkerLit cs then
      match searchSome (quotedFieldAt ("latitude").data) cs,
            searchSome (quotedFieldAt ("longitude").data) cs with
      | some a, some b => some (String.mk a, String.mk b)
      | _, _ => none
    else none
  match jsonLd with
  | some p => some p
  | none =>
    match searchSome centerArrAt cs with
    | some (a, b) => some (String.mk a, String.mk b)
    | none =>
      match searchSome latLngCallAt cs with
      | some (a, b) => some (String.mk a, String.mk b)
      | none =>
        match searchSome latKVAt cs, searchSome lngKVAt cs with
        | some a, some b => some (String.mk a, String.mk b)
        | _, _ => none

/-- Line 369: the meta-tag content pattern `([0-9.-]+),\s*([0-9.-]+)`. -/
def commaPairAt (cs : List Char) : Option (List Char × List Char) :=
  match clsM isNumC cs with
  | none => none
  | some (g1, r1) =>
    match litM [','] r1 with
    | none => none
    | some r2 =>
      match clsM isNumC (wsStar r2) with
      | none => none
      | some (g2, _) => some (g1, g2)

/-- Line 378: the second alternative `19\.[0-9]+|20\.[0-9]+` of the region
pattern (the two literals are mutually exclusive on their first character, so
the ordered alternation needs no backtracking). -/
def corfuLonAlt (r : List Char) : Option (List Char) :=
  match litM ['1', '9', '.'] r with
  | some r4 =>
    match clsM isDigitC r4 with
    | none => none
    | some (d2, _) => some ('1' :: '9' :: '.' :: d2)
  | none =>
    match litM ['2', '0', '.'] r with
    | none => none
    | some r4 =>
      match clsM isDigitC r4 with
      | none => none
      | some (d2, _) => some ('2' :: '0' :: '.' :: d2)

/-- Lines 376-381: the region-plausibility pattern
`(39\.[0-9]+)[,\s]+(19\.[0-9]+|20\.[0-9]+)` — the static Corfu bounding box
encoded as a string pattern. -/
def corfuAt (cs : List Char) : Option (String × String) :=
  match litM ['3', '9', '.'] cs with
  | none => none
  | some r1 =>
    match clsM isDigitC r1 with
    | none => none
    | some (d1, r2) =>
      match clsM isCommaWsC r2 with
      | none => none
      | some (_, r3) =>
        match corfuLonAlt r3 with
        | none => none
        | some g2 => some (String.mk ('3' :: '9' :: '.' :: d1), String.mk g2)

/-- Python-style JSON value, as produced by `json.loads`. -/
inductive JVal where
  | jnull : JVal
  | jbool : Bool → JVal
  | jint : Int → JVal
  | jfloat : ℚ → JVal
  | jstr : String → JVal
  | jarr : List JVal → JVal
  | jobj : List (String × JVal) → JVal

/-- JSON insignificant whitespace. -/
def jsonWsSkip (cs : List Char) : List Char :=
  cs.dropWhile fun c => c.toNat = 32 || c.toNat = 9 || c.toNat = 10 || c.toNat = 13

/-- JSON string escape characters (the `\\u` form is not modelled: it does not
occur in the crawler's data-map attributes). -/
def unescapeJ (c : Char) : Option Char :=
  if c = quoteChar then some quoteChar
  else if c = '\\' then some '\\'
  else if c = '/' then some '/'
  else if c = 'b' then some (Char.ofNat 8)
  else if c = 'f' then some (Char.ofNat 12)
  else if c = 'n' then some (Char.ofNat 10)
  else if c = 'r' then some (Char.ofNat 13)
  else if c = 't' then some (Char.ofNat 9)
  else none

/-- Body of a JSON string after its opening quote: the decoded characters and
the rest after the closing quote. -/
def jStrAux : List Char → Option (List Char × List Char)
  | [] => none
  | c :: r =>
    if c = quoteChar then some ([], r)
    else if c = '\\' then
      match r with
      | [] => none
      | e :: r2 =>
        match unescapeJ e with
        | none => none
        | some u =>
          match jStrAux r2 with
          | none => none
          | some (acc, rest) => some (u :: acc, rest)
    else
      match jStrAux r with
      | none => none
      | some (acc, rest) => some (c :: acc, rest)

/-- A JSON number at the current position: optional minus, integer digits, an
optional fraction and an optional exponent; an integer when it has neither
fraction nor exponent, a float otherwise, as `json.loads` distinguishes them. -/
def jNumAt (cs : List Char) : Option (JVal × List Char) :=
  let (neg, cs1) :=
    match cs with
    | '-' :: r => (true, r)
    | _ => (false, cs)
  let ip := cs1.takeWhile isDigitC
  let r1 := cs1.dropWhile isDigitC
  if ip.isEmpty then none
  else
    let (fd, r2) :=
      match r1 with
      | '.' :: rr => (rr.takeWhile isDigitC, rr.dropWhile isDigitC)
      | _ => ([], r1)
    if r1.head? = some '.' && fd.isEmpty then none
    else
      let (hasExp, ex, r3) :=
        match r2 with
        | 'e' :: rr => expPart rr
        | 'E' :: rr => expPart rr
        | _ => (false, (0 : Int), r2)
      if hasExp && ex = 0 && r3 = r2 then none
      else
        let sign : ℚ := if neg then -1 else 1
        if fd.isEmpty && r2 = r3 && !hasExp then
          some (JVal.jint ((if neg then -1 else 1) * (digitsVal ip : Int)), r1)
        else
          let base : ℚ := (digitsVal ip : ℚ) + (digitsVal fd : ℚ) / (10 : ℚ) ^ fd.length
          some (JVal.jfloat (sign * base * (10 : ℚ) ^ ex), r3)
where
  /-- Exponent part after the `e`: optional sign then digits. -/
  expPart (rr : List Char) : Bool × Int × List Char :=
    let (eneg, rr1) :=
      match rr with
      | '-' :: t => (true, t)
      | '+' :: t => (false, t)
      | _ => (false, rr)
    let eds := rr1.takeWhile isDigitC
    if eds.isEmpty then (false, 0, rr)
    else (true, (if eneg then -1 else 1) * (digitsVal eds : Int), rr1.dropWhile isDigitC)

mutual

/-- A JSON value at the current position, with a fuel bound on nesting. -/
def parseJVal : Nat → List Char → Option (JVal × List Char)
  | 0, _ => none
  | f + 1, cs =>
    match jsonWsSkip cs with
    | [] => none
    | c :: r =>
      if c = quoteChar then
        match jStrAux r with
        | none => none
        | some (sl, rest) => some (JVal.jstr (String.mk sl), rest)
      else if c = '[' then
        match jsonWsSkip r with
        | ']' :: r2 => some (JVal.jarr [], r2)
        | r1 =>
          match parseJElems f r1 with
          | none => none
          | some (l, rest) => some (JVal.jarr l, rest)
      else if c = '\x7b' then
        match jsonWsSkip r with
        | '\x7d' :: r2 => some (JVal.jobj [], r2)
        | r1 =>
          match parseJFields f r1 with
          | none => none
          | some (l, rest) => some (JVal.jobj l, rest)
      else if c = 'n' then
        match litM ['u', 'l', 'l'] r with
        | none => none
        | some rest => some (JVal.jnull, rest)
      else if c = 't' then
        match litM ['r', 'u', 'e'] r with
        | none => none
        | some rest => some (JVal.jbool true, rest)
      else if c = 'f' then
        match litM ['a', 'l', 's', 'e'] r with
        | none => none
        | some rest => some (JVal.jbool false, rest)
      else jNumAt (c :: r)

/-- Comma-separated JSON array elements up to the closing bracket. -/
def parseJElems : Nat → List Char → Option (List JVal × List Char)
  | 0, _ => none
  | f + 1, cs =>
    match parseJVal f cs with
    | none => none
    | some (v, rest) =>
      match jsonWsSkip rest with
      | ',' :: r2 =>
        match parseJElems f r2 with
        | none => none
        | some (l, rest2) => some (v :: l, rest2)
      | ']' :: r2 => some ([v], r2)
      | _ => none

/-- Comma-separated JSON object members up to the closing brace. -/
def parseJFields : Nat → List Char → Option (List (String × JVal) × List Char)
  | 0, _ => none
  | f + 1, cs =>
    match jsonWsSkip cs with
    | [] => none
    | c :: r =>
      if c = quoteChar then
        match jStrAux r with
        | none => none
        | some (k, r1) =>
          match jsonWsSkip r1 with
          | ':' :: r2 =>
            match parseJVal f r2 with
            | none => none
            | some (v, rest) =>
              match jsonWsSkip rest with
              | ',' :: r3 =>
                match parseJFields f r3 with
                | none => none
                | some (l, rest2) => some ((String.mk k, v) :: l, rest2)
              | '\x7d' :: r3 => some ([(String.mk k, v)], r3)
              | _ => none
          | _ => none
      else none

end

/-- Python `json.loads`: a single JSON document with nothing but whitespace
around it; `none` models the `JSONDecodeError`. -/
def jsonLoads (s : String) : Option JVal :=
  match parseJVal (2 * s.length + 4) s.data with
  | none => none
  | some (v, rest) => if (jsonWsSkip rest).isEmpty then some v else none

mutual

/-- Python `repr()` of a JSON-parsed value, used for elements nested inside
containers (the quote choice of string reprs is modelled as always a single
quote, Python's default). -/
def pyReprJ : JVal → String
  | JVal.jnull => "None"
  | JVal.jbool true => "True"
  | JVal.jbool false => "False"
  | JVal.jint n => intStr n
  | JVal.jfloat q => ratFloatStr q
  | JVal.jstr s => String.mk (apostChar :: s.data ++ [apostChar])
  | JVal.jarr l => "[" ++ pyReprList l ++ "]"
  | JVal.jobj l => "\x7b" ++ pyReprFields l ++ "\x7d"

/-- Comma-separated reprs of list elements. -/
def pyReprList : List JVal → String
  | [] => ""
  | [v] => pyReprJ v
  | v :: rest => pyReprJ v ++ ", " ++ pyReprList rest

/-- Comma-separated reprs of dict members. -/
def pyReprFields : List (String × JVal) → String
  | [] => ""
  | [(k, v)] => String.mk (apostChar :: k.data ++ [apostChar]) ++ ": " ++ pyReprJ v
  | (k, v) :: rest =>
    String.mk (apostChar :: k.data ++ [apostChar]) ++ ": " ++ pyReprJ v ++ ", " ++
      pyReprFields rest

end

/-- Python `str()` of a JSON-parsed value, as applied on line 352. -/
def pyStrJ : JVal → String
  | JVal.jnull => "None"
  | JVal.jbool true => "True"
  | JVal.jbool false => "False"
  | JVal.jint n => intStr n
  | JVal.jfloat q => ratFloatStr q
  | JVal.jstr s => s
  | JVal.jarr l => "[" ++ pyReprList l ++ "]"
  | JVal.jobj l => "\x7b" ++ pyReprFields l ++ "\x7d"

/-- First element of a list on which the scan yields a value: the shape of every
`for ... : if ...: return` loop of the extractor. -/
def firstSome {α β : Type} (f : α → Option β) : List α → Option β
  | [] => none
  | x :: xs =>
    match f x with
    | some r => some r
    | none => firstSome f xs

/-- Shallow embedding of the BeautifulSoup document as the extractor queries it:
each field holds the result of one of the soup queries of
`extract_coordinates_from_map`, in document order.  A script element whose
`.string` is `None` behaves exactly like one whose string is empty (both fail
the `if script.string:` truthiness test), so both are modelled as `""`. -/
structure Soup where
  /-- Line 231: `soup.get_text()`. -/
  pageText : String
  /-- Line 248: texts of the div/span/p elements whose string matches `\d+°\d+`. -/
  coordElementTexts : List String
  /-- Line 263: the `src` attribute of each iframe (`""` when absent). -/
  iframeSrcs : List String
  /-- Lines 286-288: the `.string` of each script element. -/
  scriptStrings : List String
  /-- Line 335: the (`data-lat`, `data-lng`) attribute pairs of the elements
  carrying both. -/
  dataLatLngAttrs : List (String × String)
  /-- Line 343: the `data-map` attribute of each element carrying one. -/
  dataMapAttrs : List String
  /-- Lines 366-368: the `content` of each meta tag whose `property` matches
  `geo|location` (`""` when absent). -/
  geoMetaContents : List String
deriving DecidableEq

/-- Lines 230-245, Method 1: DMS pair in the page text; falls through when the
pattern matches but either token fails to convert. -/
def method1 (soup : Soup) : Option (String × String) :=
  match searchSome dmsPairAt soup.pageText.data with
  | none => none
  | some (latDms, lonDms) =>
    match convert_dms_to_decimal latDms, convert_dms_to_decimal lonDms with
    | some a, some b => some (ratFloatStr a, ratFloatStr b)
    | _, _ => none

/-- Lines 247-260, Method 2: DMS pair in coordinate-flagged elements; each
element is tried in turn, and one whose match fails to convert is skipped. -/
def method2 (soup : Soup) : Option (String × String) :=
  firstSome
    (fun t =>
      match searchSome dmsPairAt t.data with
      | none => none
      | some (latDms, lonDms) =>
        match convert_dms_to_decimal latDms, convert_dms_to_decimal lonDms with
        | some a, some b => some (ratFloatStr a, ratFloatStr b)
        | _, _ => none)
    soup.coordElementTexts

/-- Lines 262-283, Method 3: Google-Maps iframe URL conventions. -/
def method3 (soup : Soup) : Option (String × String) :=
  firstSome iframeScan soup.iframeSrcs

/-- Lines 285-332, Method 4: JSON-LD and JavaScript coordinate patterns,
script by script. -/
def method4 (soup : Soup) : Option (String × String) :=
  firstSome (fun s => if s = "" then none else scriptScan s) soup.scriptStrings

/-- Lines 346-363: handling of one `data-map` attribute value: a JSON list of
two or more entries, or — only when the JSON parse fails — a comma-separated
pair of floats. -/
def dataMapScan (e : String) : Option (String × String) :=
  if e = "" then none
  else
    match jsonLoads e with
    | some v =>
      match v with
      | JVal.jarr (a :: b :: _) => some (pyStrJ a, pyStrJ b)
      | _ => none
    | none =>
      if e.data.contains ',' then
        match e.splitOn "," with
        | p0 :: p1 :: _ =>
          match pyFloat? p0, pyFloat? p1 with
          | some a, some b => some (ratFloatStr a, ratFloatStr b)
          | _, _ => none
        | _ => none
      else none

/-- Lines 334-363, Method 5: paired `data-lat`/`data-lng` attributes (both must
be truthy), then single `data-map` attributes. -/
def method5 (soup : Soup) : Option (String × String) :=
  match
    firstSome
      (fun pr : String × String => if pr.1 ≠ "" ∧ pr.2 ≠ "" then some pr else none)
      soup.dataLatLngAttrs
  with
  | some p => some p
  | none => firstSome dataMapScan soup.dataMapAttrs

/-- Lines 365-371, Method 6: comma-separated pair in geo meta tag contents. -/
def method6 (soup : Soup) : Option (String × String) :=
  firstSome
    (fun content =>
      match searchSome commaPairAt content.data with
      | none => none
      | some (a, b) => some (String.mk a, String.mk b))
    soup.geoMetaContents

/-- Lines 373-381, Method 7: region-plausibility fallback over all scripts. -/
def method7 (soup : Soup) : Option (String × String) :=
  firstSome (fun s => if s = "" then none else searchSome corfuAt s.data)
    soup.scriptStrings

/-- Lines 218-383: `GreekaHotelCrawler.extract_coordinates_from_map` — the
seven methods in source order, each an early return, with the empty-pair
sentinel when all fail. -/
def extract_coordinates_from_map (soup : Soup) : String × String :=
  match method1 soup with
  | some p => p
  | none =>
    match method2 soup with
    | some p => p
    | none =>
      match method3 soup with
      | some p => p
      | none =>
        match method4 soup with
        | some p => p
        | none =>
          match method5 soup with
          | some p => p
          | none =>
            match method6 soup with
            | some p => p
            | none =>
              match method7 soup with
              | some p => p
              | none => ("", "")

/-- The strategies in the priority order of the source, as one list. -/
def strategyList : List (Soup → Option (String × String)) :=
  [method1, method2, method3, method4, method5, method6, method7]

/-- A synthetic JSON-LD script block carrying a GeoCoordinates object. -/
def jsonLdText : String :=
  "\x7b\"@context\":\"https://schema.org\",\"@type\":\"GeoCoordinates\",\"latitude\":\"39.6243\",\"longitude\":\"19.9217\"\x7d"

/-- A synthetic document containing both a valid JSON-LD geo block and a valid
Google-Maps embed URL, with different coordinates in the two sources. -/
def soupPriority : Soup :=
  { pageText := jsonLdText
    coordElementTexts := []
    iframeSrcs := ["https://www.google.com/maps?q=39.5014,19.8435"]
    scriptStrings := [jsonLdText]
    dataLatLngAttrs := []
    dataMapAttrs := []
    geoMetaContents := [] }

/-- A synthetic document whose only coordinate signal is a data-map attribute
holding a JSON array whose first entry is an empty string. -/
def soupDataMap : Soup :=
  { pageText := ""
    coordElementTexts := []
    iframeSrcs := []
    scriptStrings := []
    dataLatLngAttrs := []
    dataMapAttrs := ["[\"\",\"19.84\"]"]
    geoMetaContents := [] }

/-- A synthetic document whose Google-Maps embed URL carries the out-of-range
pair 500,500. -/
def soupQ500 : Soup :=
  { pageText := ""
    coordElementTexts := []
    iframeSrcs := ["https://maps.google.com/?q=500,500"]
    scriptStrings := []
    dataLatLngAttrs := []
    dataMapAttrs := []
    geoMetaContents := [] }

/-- Script text with a single decimal pair inside the region bounding box. -/
def inBoxScript : String := "var c = 39.71, 19.93;"

/-- Script text with a single decimal pair outside the region bounding box. -/
def outBoxScript : String := "var c = 45.2, 25.3;"

/-- Script text with an implausible pair before two plausible ones. -/
def multiScript : String := "a = 45.2, 25.3; b = 39.71, 19.93; c = 39.8, 20.1;"

/-- A synthetic document whose only coordinate signal is an in-box decimal pair
in a script. -/
def soupBoxIn : Soup :=
  { pageText := inBoxScript
    coordElementTexts := []
    iframeSrcs := []
    scriptStrings := [inBoxScript]
    dataLatLngAttrs := []
    dataMapAttrs := []
    geoMetaContents := [] }

/-- A synthetic document whose only coordinate signal is an out-of-box decimal
pair in a script. -/
def soupBoxOut : Soup :=
  { pageText := outBoxScript
    coordElementTexts := []
    iframeSrcs := []
    scriptStrings := [outBoxScript]
    dataLatLngAttrs := []
    dataMapAttrs := []
    geoMetaContents := [] }

/-- A synthetic document with several script decimal pairs, the first
implausible and the later ones plausible. -/
def soupMulti : Soup :=
  { pageText := multiScript
    coordElementTexts := []
    iframeSrcs := []
    scriptStrings := [multiScript]
    dataLatLngAttrs := []
    dataMapAttrs := []
    geoMetaContents := [] }

/-- A synthetic document whose embed URL matches the `?q=lat,lon` convention
but is not a Google-Maps URL. -/
def soupNonGoogle : Soup :=
  { pageText := ""
    coordElementTexts := []
    iframeSrcs := ["https://example.com/embed?q=39.5,19.5"]
    scriptStrings := []
    dataLatLngAttrs := []
    dataMapAttrs := []
    geoMetaContents := [] }

/-- A string made from a nonempty character list is not the empty string. -/
theorem mkStr_ne_empty (c : Char) (l : List Char) : String.mk (c :: l) ≠ "" :=
  fun h => List.noConfusion (congrArg String.data h)

/-- A string made from a list known to be nonempty is not the empty string. -/
theorem mkStr_ne_empty_of_ne {l : List Char} (h : l ≠ []) : String.mk l ≠ "" := by
  match l, h with
  | c :: t, _ => exact mkStr_ne_empty c t

/-- Elements surviving `dropWhile` were in the original list. -/
theorem mem_dropWhile {p : Char → Bool} :
    ∀ {l : List Char} {a : Char}, a ∈ l.dropWhile p → a ∈ l := by
  intro l
  induction l with
  | nil => intro a h; simp at h
  | cons c t ih =>
    intro a h
    rw [List.dropWhile_cons] at h
    by_cases hc : p c = true
    · rw [if_pos hc] at h
      exact List.mem_cons_of_mem c (ih h)
    · rw [if_neg hc] at h
      exact h

/-- Characters of a stripped string are characters of the original. -/
theorem mem_stripL {cs : List Char} {a : Char} (h : a ∈ stripL cs) : a ∈ cs := by
  unfold stripL at h
  rw [List.mem_reverse] at h
  have h1 := mem_dropWhile h
  rw [List.mem_reverse] at h1
  exact mem_dropWhile h1

/-- If no element satisfies the predicate, `dropWhile` is the identity. -/
theorem dropWhile_none {p : Char → Bool} :
    ∀ {l : List Char}, (∀ c ∈ l, p c = false) → l.dropWhile p = l := by
  intro l
  induction l with
  | nil => intro _; rfl
  | cons c t _ =>
    intro h
    rw [List.dropWhile_cons, if_neg (by simp [h c (List.mem_cons_self c t)])]

/-- If every element satisfies the predicate, `takeWhile` is the identity. -/
theorem takeWhile_all {p : Char → Bool} :
    ∀ {l : List Char}, (∀ c ∈ l, p c = true) → l.takeWhile p = l := by
  intro l
  induction l with
  | nil => intro _; rfl
  | cons c t ih =>
    intro h
    rw [List.takeWhile_cons, if_pos (h c (List.mem_cons_self c t))]
    exact congrArg (c :: ·) (ih fun x hx => h x (List.mem_cons_of_mem c hx))

/-- If every element satisfies the predicate, `dropWhile` drops everything. -/
theorem dropWhile_all {p : Char → Bool} :
    ∀ {l : List Char}, (∀ c ∈ l, p c = true) → l.dropWhile p = [] := by
  intro l
  induction l with
  | nil => intro _; rfl
  | cons c t ih =>
    intro h
    rw [List.dropWhile_cons, if_pos (h c (List.mem_cons_self c t))]
    exact ih fun x hx => h x (List.mem_cons_of_mem c hx)

/-- A whitespace-free character list is left unchanged by the strip. -/
theorem stripL_noop {cs : List Char} (h : ∀ c ∈ cs, isWsC c = false) : stripL cs = cs := by
  unfold stripL
  rw [dropWhile_none h]
  rw [dropWhile_none fun c hc => h c (List.mem_reverse.mp hc), List.reverse_reverse]

/-- What a successful class match says: the capture is the maximal run, it is
nonempty, and the rest is the corresponding drop. -/
theorem clsM_some {p : Char → Bool} {cs g r : List Char} (h : clsM p cs = some (g, r)) :
    g = cs.takeWhile p ∧ r = cs.dropWhile p ∧ g ≠ [] := by
  unfold clsM at h
  by_cases he : (cs.takeWhile p).isEmpty = true
  · simp [he] at h
  · simp only [he, if_neg, Bool.false_eq_true, not_false_eq_true, if_false] at h
    obtain ⟨h1, h2⟩ := Prod.mk.injEq .. ▸ Option.some.injEq .. ▸ h
    refine ⟨h1.symm, h2.symm, ?_⟩
    rw [← h1.symm] at he
    simpa [List.isEmpty_iff] using he

/-- Every capture character of a class match satisfies the class predicate. -/
theorem clsM_chars {p : Char → Bool} {cs g r : List Char} (h : clsM p cs = some (g, r)) :
    ∀ c ∈ g, p c = true := by
  obtain ⟨h1, -, -⟩ := clsM_some h
  intro c hc
  exact List.mem_takeWhile_imp (h1 ▸ hc)

/-- The remainder of a literal match consists of characters of the input. -/
theorem litM_mem : ∀ (p cs r : List Char), litM p cs = some r → ∀ a ∈ r, a ∈ cs := by
  intro p
  induction p with
  | nil =>
    intro cs r h a ha
    unfold litM at h
    cases h
    exact ha
  | cons x xs ih =>
    intro cs r h a ha
    cases cs with
    | nil => simp [litM] at h
    | cons c t =>
      unfold litM at h
      by_cases hc : c = x
      · rw [if_pos hc] at h
        exact List.mem_cons_of_mem c (ih t r h a ha)
      · rw [if_neg hc] at h
        cases h

/-- What a successful one-of match says: the character is the head of the
input and belongs to the set, the rest is the tail. -/
theorem oneOfM_some {s cs : List Char} {c : Char} {r : List Char}
    (h : oneOfM s cs = some (c, r)) :
    c ∈ cs ∧ c ∈ s ∧ ∀ a ∈ r, a ∈ cs := by
  cases cs with
  | nil => simp [oneOfM] at h
  | cons c' t =>
    have h2 : (if s.contains c' = true then some (c', t) else none) = some (c, r) := h
    by_cases hc : s.contains c' = true
    · rw [if_pos hc] at h2
      obtain ⟨e1, e2⟩ := Prod.mk.injEq .. ▸ Option.some.injEq .. ▸ h2
      subst e1
      subst e2
      exact ⟨List.mem_cons_self c' t, by simpa using hc,
        fun a ha => List.mem_cons_of_mem c' ha⟩
    · rw [if_neg hc] at h2
      cases h2

/-- A position matcher whose every success satisfies a property transports that
property through the leftmost search. -/
theorem searchSome_imp {α : Type} {P : α → Prop} {f : List Char → Option α}
    (hf : ∀ cs r, f cs = some r → P r) :
    ∀ cs r, searchSome f cs = some r → P r := by
  intro cs
  induction cs with
  | nil =>
    intro r h
    exact hf [] r (by simpa [searchSome] using h)
  | cons c t ih =>
    intro r h
    unfold searchSome at h
    cases e : f (c :: t) with
    | some v =>
      rw [e] at h
      cases h
      exact hf _ _ e
    | none =>
      rw [e] at h
      exact ih r h

/-- A per-element scan whose every success satisfies a property transports that
property through the first-success loop. -/
theorem firstSome_imp {α β : Type} {P : β → Prop} {f : α → Option β}
    (hf : ∀ x r, f x = some r → P r) :
    ∀ l r, firstSome f l = some r → P r := by
  intro l
  induction l with
  | nil => intro r h; simp [firstSome] at h
  | cons x t ih =>
    intro r h
    unfold firstSome at h
    cases e : f x with
    | some v =>
      rw [e] at h
      cases h
      exact hf _ _ e
    | none =>
      rw [e] at h
      exact ih r h

/-- A scan failing on every element makes the first-success loop fail. -/
theorem firstSome_none {α β : Type} {f : α → Option β} :
    ∀ {l : List α}, (∀ x ∈ l, f x = none) → firstSome f l = none := by
  intro l
  induction l with
  | nil => intro _; rfl
  | cons x t ih =>
    intro h
    unfold firstSome
    rw [h x (List.mem_cons_self x t)]
    exact ih fun y hy => h y (List.mem_cons_of_mem x hy)

/-- The float rendering never produces the empty character list: it always
contains a decimal point. -/
theorem ratFloatChars_ne (q : ℚ) : ratFloatChars q ≠ [] := by
  intro h
  simp [ratFloatChars] at h

/-- The float rendering never produces the empty string. -/
theorem ratFloatStr_ne (q : ℚ) : ratFloatStr q ≠ "" :=
  mkStr_ne_empty_of_ne (ratFloatChars_ne q)

/-- Both captures of the shared two-group URL shape are nonempty. -/
theorem numPairSep_ne {sep cs : List Char} {g : List Char × List Char}
    (h : numPairSep sep cs = some g) : g.1 ≠ [] ∧ g.2 ≠ [] := by
  unfold numPairSep at h
  split at h
  · exact Option.noConfusion h
  next g1 r1 hg1 =>
    split at h
    · exact Option.noConfusion h
    next r2 hr2 =>
      split at h
      · exact Option.noConfusion h
      next g2 r3 hg2 =>
        simp only [Option.some.injEq] at h
        subst h
        exact ⟨(clsM_some hg1).2.2, (clsM_some hg2).2.2⟩

/-- Both captures of the `?q=` convention are nonempty. -/
theorem patQAt_ne {cs : List Char} {g : List Char × List Char}
    (h : patQAt cs = some g) : g.1 ≠ [] ∧ g.2 ≠ [] := by
  unfold patQAt at h
  split at h
  · exact Option.noConfusion h
  next c r hc =>
    split at h
    · exact Option.noConfusion h
    next r2 hr2 => exact numPairSep_ne h

/-- Both captures of the `!2d...!3d...` convention are nonempty. -/
theorem pat2d3dAt_ne {cs : List Char} {g : List Char × List Char}
    (h : pat2d3dAt cs = some g) : g.1 ≠ [] ∧ g.2 ≠ [] := by
  unfold pat2d3dAt at h
  split at h
  · exact Option.noConfusion h
  next r hr => exact numPairSep_ne h

/-- Both captures of the `center=` convention are nonempty. -/
theorem patCenterUrlAt_ne {cs : List Char} {g : List Char × List Char}
    (h : patCenterUrlAt cs = some g) : g.1 ≠ [] ∧ g.2 ≠ [] := by
  unfold patCenterUrlAt at h
  split at h
  · exact Option.noConfusion h
  next r hr => exact numPairSep_ne h

/-- Both captures of the `ll=` convention are nonempty. -/
theorem patLLAt_ne {cs : List Char} {g : List Char × List Char}
    (h : patLLAt cs = some g) : g.1 ≠ [] ∧ g.2 ≠ [] := by
  unfold patLLAt at h
  split at h
  · exact Option.noConfusion h
  next c r hc =>
    split at h
    · exact Option.noConfusion h
    next r2 hr2 => exact numPairSep_ne h

/-- Both captures of the `@lat,lon` convention are nonempty. -/
theorem patAtSignAt_ne {cs : List Char} {g : List Char × List Char}
    (h : patAtSignAt cs = some g) : g.1 ≠ [] ∧ g.2 ≠ [] := by
  unfold patAtSignAt at h
  split at h
  · exact Option.noConfusion h
  next r hr => exact numPairSep_ne h

/-- A successful iframe scan yields two nonempty strings. -/
theorem iframeScan_ne {src : String} {pr : String × String}
    (h : iframeScan src = some pr) : pr.1 ≠ "" ∧ pr.2 ≠ "" := by
  simp only [iframeScan] at h
  split at h
  case isFalse => exact Option.noConfusion h
  case isTrue =>
    split at h
    next a b hq =>
      have := searchSome_imp (fun cs g hg => patQAt_ne hg) _ _ hq
      simp only [Option.some.injEq] at h
      subst h
      exact ⟨mkStr_ne_empty_of_ne this.1, mkStr_ne_empty_of_ne this.2⟩
    next hq =>
      split at h
      next a b h2 =>
        have := searchSome_imp (fun cs g hg => pat2d3dAt_ne hg) _ _ h2
        simp only [Option.some.injEq] at h
        subst h
        exact ⟨mkStr_ne_empty_of_ne this.2, mkStr_ne_empty_of_ne this.1⟩
      next h2 =>
        split at h
        next a b h3 =>
          have := searchSome_imp (fun cs g hg => patCenterUrlAt_ne hg) _ _ h3
          simp only [Option.some.injEq] at h
          subst h
          exact ⟨mkStr_ne_empty_of_ne this.1, mkStr_ne_empty_of_ne this.2⟩
        next h3 =>
          split at h
          next a b h4 =>
            have := searchSome_imp (fun cs g hg => patLLAt_ne hg) _ _ h4
            simp only [Option.some.injEq] at h
            subst h
            exact ⟨mkStr_ne_empty_of_ne this.1, mkStr_ne_empty_of_ne this.2⟩
          next h4 =>
            split at h
            next a b h5 =>
              have := searchSome_imp (fun cs g hg => patAtSignAt_ne hg) _ _ h5
              simp only [Option.some.injEq] at h
              subst h
              exact ⟨mkStr_ne_empty_of_ne this.1, mkStr_ne_empty_of_ne this.2⟩
            next h5 => exact Option.noConfusion h

/-- The capture of a quoted JSON-LD field is nonempty. -/
theorem quotedFieldAt_ne {name cs g : List Char} (h : quotedFieldAt name cs = some g) :
    g ≠ [] := by
  unfold quotedFieldAt at h
  split at h
  · exact Option.noConfusion h
  next r1 h1 =>
    split at h
    · exact Option.noConfusion h
    next r3 h3 =>
      split at h
      · exact Option.noConfusion h
      next r5 h5 =>
        split at h
        · exact Option.noConfusion h
        next g0 r6 h6 =>
          split at h
          · exact Option.noConfusion h
          next r7 h7 =>
            simp only [Option.some.injEq] at h
            subst h
            exact (clsM_some h6).2.2

/-- Both captures of the center-array pattern are nonempty. -/
theorem centerArrAt_ne {cs : List Char} {g : List Char × List Char}
    (h : centerArrAt cs = some g) : g.1 ≠ [] ∧ g.2 ≠ [] := by
  unfold centerArrAt at h
  split at h
  · exact Option.noConfusion h
  next r1 h1 =>
    split at h
    · exact Option.noConfusion h
    next c r2 h2 =>
      split at h
      · exact Option.noConfusion h
      next r3 h3 =>
        split at h
        · exact Option.noConfusion h
        next g1 r4 h4 =>
          split at h
          · exact Option.noConfusion h
          next r5 h5 =>
            split at h
            · exact Option.noConfusion h
            next g2 r6 h6 =>
              split at h
              · exact Option.noConfusion h
              next r7 h7 =>
                simp only [Option.some.injEq] at h
                subst h
                exact ⟨(clsM_some h4).2.2, (clsM_some h6).2.2⟩

/-- Both captures of the constructor-call pattern are nonempty. -/
theorem latLngCallAt_ne {cs : List Char} {g : List Char × List Char}
    (h : latLngCallAt cs = some g) : g.1 ≠ [] ∧ g.2 ≠ [] := by
  unfold latLngCallAt at h
  split at h
  · exact Option.noConfusion h
  next r1 h1 =>
    split at h
    · exact Option.noConfusion h
    next r2 h2 =>
      split at h
      · exact Option.noConfusion h
      next g1 r3 h3 =>
        split at h
        · exact Option.noConfusion h
        next r4 h4 =>
          split at h
          · exact Option.noConfusion h
          next g2 r5 h5 =>
            split at h
            · exact Option.noConfusion h
            next r6 h6 =>
              simp only [Option.some.injEq] at h
              subst h
              exact ⟨(clsM_some h3).2.2, (clsM_some h5).2.2⟩

/-- The capture of a key-value pattern is nonempty. -/
theorem kvAt_ne {key cs g : List Char} (h : kvAt key cs = some g) : g ≠ [] := by
  unfold kvAt at h
  split at h
  · exact Option.noConfusion h
  next r1 h1 =>
    split at h
    · exact Option.noConfusion h
    next c r2 h2 =>
      split at h
      · exact Option.noConfusion h
      next g0 r3 h3 =>
        simp only [Option.some.injEq] at h
        subst h
        exact (clsM_some h3).2.2

/-- The capture of the lat-key alternation is nonempty. -/
theorem latKVAt_ne {cs g : List Char} (h : latKVAt cs = some g) : g ≠ [] := by
  unfold latKVAt at h
  split at h
  next g0 h0 =>
    simp only [Option.some.injEq] at h
    subst h
    exact kvAt_ne h0
  next h0 => exact kvAt_ne h

/-- The capture of the lng-key alternation is nonempty. -/
theorem lngKVAt_ne {cs g : List Char} (h : lngKVAt cs = some g) : g ≠ [] := by
  unfold lngKVAt at h
  split at h
  next g0 h0 =>
    simp only [Option.some.injEq] at h
    subst h
    exact kvAt_ne h0
  next h0 => exact kvAt_ne h

/-- A successful per-script scan yields two nonempty strings. -/
theorem scriptScan_ne {content : String} {pr : String × String}
    (h : scriptScan content = some pr) : pr.1 ≠ "" ∧ pr.2 ≠ "" := by
  simp only [scriptScan] at h
  split at h
  next p hp =>
    simp only [Option.some.injEq] at h
    subst h
    split at hp
    case isTrue =>
      split at hp
      next a b ha hb =>
        have h1 := searchSome_imp (fun cs g hg => quotedFieldAt_ne hg) _ _ ha
        have h2 := searchSome_imp (fun cs g hg => quotedFieldAt_ne hg) _ _ hb
        simp only [Option.some.injEq] at hp
        subst hp
        exact ⟨mkStr_ne_empty_of_ne h1, mkStr_ne_empty_of_ne h2⟩
      next hne => exact Option.noConfusion hp
    case isFalse => exact Option.noConfusion hp
  next hp =>
    split at h
    next a b hc =>
      have := searchSome_imp (fun cs g hg => centerArrAt_ne hg) _ _ hc
      simp only [Option.some.injEq] at h
      subst h
      exact ⟨mkStr_ne_empty_of_ne this.1, mkStr_ne_empty_of_ne this.2⟩
    next hc =>
      split at h
      next a b hl =>
        have := searchSome_imp (fun cs g hg => latLngCallAt_ne hg) _ _ hl
        simp only [Option.some.injEq] at h
        subst h
        exact ⟨mkStr_ne_empty_of_ne this.1, mkStr_ne_empty_of_ne this.2⟩
      next hl =>
        split at h
        next a b ha hb =>
          have h1 := searchSome_imp (fun cs g hg => latKVAt_ne hg) _ _ ha
          have h2 := searchSome_imp (fun cs g hg => lngKVAt_ne hg) _ _ hb
          simp only [Option.some.injEq] at h
          subst h
          exact ⟨mkStr_ne_empty_of_ne h1, mkStr_ne_empty_of_ne h2⟩
        next hne => exact Option.noConfusion h

/-- Both captures of the meta-content pattern are nonempty. -/
theorem commaPairAt_ne {cs : List Char} {g : List Char × List Char}
    (h : commaPairAt cs = some g) : g.1 ≠ [] ∧ g.2 ≠ [] := by
  unfold commaPairAt at h
  split at h
  · exact Option.noConfusion h
  next g1 r1 h1 =>
    split at h
    · exact Option.noConfusion h
    next r2 h2 =>
      split at h
      · exact Option.noConfusion h
      next g2 r3 h3 =>
        simp only [Option.some.injEq] at h
        subst h
        exact ⟨(clsM_some h1).2.2, (clsM_some h3).2.2⟩

/-- Shape of the second region capture: the literal `19.` or `20.` followed by
a nonempty digit run. -/
theorem corfuLonAlt_shape {r g : List Char} (h : corfuLonAlt r = some g) :
    ∃ d2, d2 ≠ [] ∧ (∀ c ∈ d2, isDigitC c = true) ∧
      (g = '1' :: '9' :: '.' :: d2 ∨ g = '2' :: '0' :: '.' :: d2) := by
  unfold corfuLonAlt at h
  split at h
  next r4 h4 =>
    split at h
    · exact Option.noConfusion h
    next d2 r5 h5 =>
      simp only [Option.some.injEq] at h
      subst h
      exact ⟨d2, (clsM_some h5).2.2, clsM_chars h5, Or.inl rfl⟩
  next h4 =>
    split at h
    · exact Option.noConfusion h
    next r4 h4b =>
      split at h
      · exact Option.noConfusion h
      next d2 r5 h5 =>
        simp only [Option.some.injEq] at h
        subst h
        exact ⟨d2, (clsM_some h5).2.2, clsM_chars h5, Or.inr rfl⟩

/-- Shape of a successful region-pattern match: a `39.`-headed latitude string
and a `19.`- or `20.`-headed longitude string, each with a nonempty digit
tail. -/
theorem corfuAt_shape {cs : List Char} {pr : String × String}
    (h : corfuAt cs = some pr) :
    (∃ d1, d1 ≠ [] ∧ (∀ c ∈ d1, isDigitC c = true) ∧
      pr.1 = String.mk ('3' :: '9' :: '.' :: d1)) ∧
    (∃ d2, d2 ≠ [] ∧ (∀ c ∈ d2, isDigitC c = true) ∧
      (pr.2 = String.mk ('1' :: '9' :: '.' :: d2) ∨
        pr.2 = String.mk ('2' :: '0' :: '.' :: d2))) := by
  unfold corfuAt at h
  split at h
  · exact Option.noConfusion h
  next r1 h1 =>
    split at h
    · exact Option.noConfusion h
    next d1 r2 h2 =>
      split at h
      · exact Option.noConfusion h
      next w r3 h3 =>
        split at h
        · exact Option.noConfusion h
        next g2 h4 =>
          obtain ⟨d2, hd2ne, hd2dig, hd2eq⟩ := corfuLonAlt_shape h4
          simp only [Option.some.injEq] at h
          subst h
          refine ⟨⟨d1, (clsM_some h2).2.2, clsM_chars h2, rfl⟩, ⟨d2, hd2ne, hd2dig, ?_⟩⟩
          rcases hd2eq with e | e
          · exact Or.inl (by rw [e])
          · exact Or.inr (by rw [e])

/-- Both components of a region-pattern match are nonempty strings. -/
theorem corfuAt_ne {cs : List Char} {pr : String × String}
    (h : corfuAt cs = some pr) : pr.1 ≠ "" ∧ pr.2 ≠ "" := by
  obtain ⟨⟨d1, -, -, e1⟩, ⟨d2, -, -, e2⟩⟩ := corfuAt_shape h
  refine ⟨e1 ▸ mkStr_ne_empty _ _, ?_⟩
  rcases e2 with e | e
  · exact e ▸ mkStr_ne_empty _ _
  · exact e ▸ mkStr_ne_empty _ _

/-- Method 1 never returns a pair with an empty component. -/
theorem method1_ne {soup : Soup} {pr : String × String}
    (h : method1 soup = some pr) : pr.1 ≠ "" ∧ pr.2 ≠ "" := by
  unfold method1 at h
  split at h
  · exact Option.noConfusion h
  next latD lonD hs =>
    split at h
    next a b ha hb =>
      simp only [Option.some.injEq] at h
      subst h
      exact ⟨ratFloatStr_ne a, ratFloatStr_ne b⟩
    next hne => exact Option.noConfusion h

/-- Method 2 never returns a pair with an empty component. -/
theorem method2_ne {soup : Soup} {pr : String × String}
    (h : method2 soup = some pr) : pr.1 ≠ "" ∧ pr.2 ≠ "" := by
  refine firstSome_imp (P := fun q => q.1 ≠ "" ∧ q.2 ≠ "") (fun t r ht => ?_) _ _ h
  split at ht
  · exact Option.noConfusion ht
  next latD lonD hs =>
    split at ht
    next a b ha hb =>
      simp only [Option.some.injEq] at ht
      subst ht
      exact ⟨ratFloatStr_ne a, ratFloatStr_ne b⟩
    next hne => exact Option.noConfusion ht

/-- Method 3 never returns a pair with an empty component. -/
theorem method3_ne {soup : Soup} {pr : String × String}
    (h : method3 soup = some pr) : pr.1 ≠ "" ∧ pr.2 ≠ "" :=
  firstSome_imp (fun _ _ hr => iframeScan_ne hr) _ _ h

/-- Method 4 never returns a pair with an empty component. -/
theorem method4_ne {soup : Soup} {pr : String × String}
    (h : method4 soup = some pr) : pr.1 ≠ "" ∧ pr.2 ≠ "" := by
  refine firstSome_imp (P := fun q => q.1 ≠ "" ∧ q.2 ≠ "") (fun s r hs => ?_) _ _ h
  split at hs
  · exact Option.noConfusion hs
  · exact scriptScan_ne hs

/-- On a document with no data-map attributes, Method 5 never returns a pair
with an empty component (the data-lat/data-lng loop checks both for truth). -/
theorem method5_ne {soup : Soup} {pr : String × String}
    (hdm : soup.dataMapAttrs = []) (h : method5 soup = some pr) :
    pr.1 ≠ "" ∧ pr.2 ≠ "" := by
  unfold method5 at h
  rw [hdm] at h
  split at h
  next p hp =>
    simp only [Option.some.injEq] at h
    subst h
    refine firstSome_imp (P := fun q => q.1 ≠ "" ∧ q.2 ≠ "") (fun x r hx => ?_) _ _ hp
    split at hx
    next hcond =>
      simp only [Option.some.injEq] at hx
      subst hx
      exact hcond
    next hcond => exact Option.noConfusion hx
  next hp => simp [firstSome] at h

/-- Method 6 never returns a pair with an empty component. -/
theorem method6_ne {soup : Soup} {pr : String × String}
    (h : method6 soup = some pr) : pr.1 ≠ "" ∧ pr.2 ≠ "" := by
  refine firstSome_imp (P := fun q => q.1 ≠ "" ∧ q.2 ≠ "") (fun content r hc => ?_) _ _ h
  split at hc
  · exact Option.noConfusion hc
  next a b hab =>
    have := searchSome_imp (fun cs g hg => commaPairAt_ne hg) _ _ hab
    simp only [Option.some.injEq] at hc
    subst hc
    exact ⟨mkStr_ne_empty_of_ne this.1, mkStr_ne_empty_of_ne this.2⟩

/-- Method 7 never returns a pair with an empty component. -/
theorem method7_ne {soup : Soup} {pr : String × String}
    (h : method7 soup = some pr) : pr.1 ≠ "" ∧ pr.2 ≠ "" := by
  refine firstSome_imp (P := fun q => q.1 ≠ "" ∧ q.2 ≠ "") (fun s r hs => ?_) _ _ h
  split at hs
  · exact Option.noConfusion hs
  · exact searchSome_imp (fun cs g hg => corfuAt_ne hg) _ _ hs

/-- A successful anchored DMS match took its hemisphere letter from the input,
and that letter is one of N, S, E, W. -/
theorem dmsMatch_hem {cs : List Char} {d m : ℕ} {ss : List Char} {hc : Char}
    (hm : dmsMatch cs = some (d, m, ss, hc)) :
    hc ∈ cs ∧ (hc = 'N' ∨ hc = 'S' ∨ hc = 'E' ∨ hc = 'W') := by
  unfold dmsMatch at hm
  split at hm
  · exact Option.noConfusion hm
  next ds r1 e1 =>
    split at hm
    · exact Option.noConfusion hm
    next r2 e2 =>
      split at hm
      · exact Option.noConfusion hm
      next ms r3 e3 =>
        split at hm
        · exact Option.noConfusion hm
        next r4 e4 =>
          split at hm
          · exact Option.noConfusion hm
          next ss0 r5 e5 =>
            split at hm
            · exact Option.noConfusion hm
            next r6 e6 =>
              split at hm
              · exact Option.noConfusion hm
              next h0 r7 e7 =>
                simp only [Option.some.injEq, Prod.mk.injEq] at hm
                obtain ⟨-, -, -, e⟩ := hm
                rw [← e]
                obtain ⟨hmem6, hset, -⟩ := oneOfM_some e7
                have hmem5 : h0 ∈ r5 := litM_mem _ _ _ e6 h0 hmem6
                have hmem4 : h0 ∈ r4 := by
                  rw [(clsM_some e5).2.1] at hmem5
                  exact mem_dropWhile hmem5
                have hmem3 : h0 ∈ r3 := litM_mem _ _ _ e4 h0 hmem4
                have hmem2 : h0 ∈ r2 := by
                  rw [(clsM_some e3).2.1] at hmem3
                  exact mem_dropWhile hmem3
                have hmem1 : h0 ∈ r1 := litM_mem _ _ _ e2 h0 hmem2
                have hmem0 : h0 ∈ cs := by
                  rw [(clsM_some e1).2.1] at hmem1
                  exact mem_dropWhile hmem1
                refine ⟨hmem0, ?_⟩
                simpa using hset

/-- Accumulator bound for the digit fold. -/
theorem digitsValAux_lt :
    ∀ (l : List Char) (a : Nat), (∀ c ∈ l, isDigitC c = true) →
      l.foldl (fun a c => a * 10 + (c.toNat - 48)) a < (a + 1) * 10 ^ l.length := by
  intro l
  induction l with
  | nil =>
    intro a _
    simp only [List.foldl_nil, List.length_nil, pow_zero, mul_one]
    omega
  | cons c t ih =>
    intro a h
    have hc := h c (List.mem_cons_self c t)
    have hd : c.toNat - 48 ≤ 9 := by
      unfold isDigitC at hc
      simp only [Bool.and_eq_true, decide_eq_true_eq] at hc
      omega
    have step := ih (a * 10 + (c.toNat - 48)) fun x hx => h x (List.mem_cons_of_mem c hx)
    have hle : (a * 10 + (c.toNat - 48) + 1) * 10 ^ t.length ≤ (a + 1) * 10 ^ (c :: t).length := by
      have h1 : a * 10 + (c.toNat - 48) + 1 ≤ (a + 1) * 10 := by omega
      calc (a * 10 + (c.toNat - 48) + 1) * 10 ^ t.length
          ≤ (a + 1) * 10 * 10 ^ t.length := Nat.mul_le_mul_right _ h1
        _ = (a + 1) * 10 ^ (c :: t).length := by
            rw [List.length_cons, pow_succ]
            ring
    rw [List.foldl_cons]
    exact lt_of_lt_of_le step hle

/-- A run of digit characters reads as a value below the corresponding power
of ten. -/
theorem digitsVal_lt {l : List Char} (h : ∀ c ∈ l, isDigitC c = true) :
    digitsVal l < 10 ^ l.length := by
  have h2 := digitsValAux_lt l 0 h
  unfold digitsVal
  simpa using h2

/-- Take and drop of a run of class characters followed by a non-class
character. -/
theorem takeWhile_app_stop {p : Char → Bool} {l1 : List Char} {c : Char} (l2 : List Char)
    (h1 : ∀ x ∈ l1, p x = true) (hc : p c = false) :
    (l1 ++ c :: l2).takeWhile p = l1 ∧ (l1 ++ c :: l2).dropWhile p = c :: l2 := by
  induction l1 with
  | nil => simp [List.takeWhile_cons, List.dropWhile_cons, hc]
  | cons x t ih =>
    have hx := h1 x (List.mem_cons_self x t)
    obtain ⟨e1, e2⟩ := ih fun y hy => h1 y (List.mem_cons_of_mem x hy)
    simp [List.takeWhile_cons, List.dropWhile_cons, hx, e1, e2]

/-- A digit character is not a minus sign. -/
theorem digit_ne_minus {c : Char} (h : isDigitC c = true) : c ≠ '-' := by
  intro e
  rw [e] at h
  exact absurd h (by decide)

/-- A digit character is not a plus sign. -/
theorem digit_ne_plus {c : Char} (h : isDigitC c = true) : c ≠ '+' := by
  intro e
  rw [e] at h
  exact absurd h (by decide)

/-- A digit character is not whitespace. -/
theorem digit_not_ws {c : Char} (h : isDigitC c = true) : isWsC c = false := by
  unfold isDigitC at h
  unfold isWsC
  simp only [Bool.and_eq_true, decide_eq_true_eq] at h
  simp only [Bool.or_eq_false_iff, decide_eq_false_iff_not]
  omega

/-- Value of the float parse on a digit run, a point, and a digit run. -/
theorem pyFloatL_digits (ip fr : List Char) (hipne : ip ≠ [])
    (hip : ∀ c ∈ ip, isDigitC c = true) (hfr : ∀ c ∈ fr, isDigitC c = true) :
    pyFloatL (ip ++ '.' :: fr) =
      some ((digitsVal ip : ℚ) + (digitsVal fr : ℚ) / (10 : ℚ) ^ fr.length) := by
  obtain ⟨c0, ip', rfl⟩ : ∃ c0 ip', ip = c0 :: ip' := by
    cases ip with
    | nil => exact absurd rfl hipne
    | cons c0 ip' => exact ⟨c0, ip', rfl⟩
  have hc0 := hip c0 (List.mem_cons_self c0 ip')
  have hsign : pySign ((c0 :: ip') ++ '.' :: fr) = (false, (c0 :: ip') ++ '.' :: fr) := by
    rw [List.cons_append]
    simp only [pySign]
    rw [if_neg (digit_ne_minus hc0), if_neg (digit_ne_plus hc0)]
  have hdot : isDigitC '.' = false := by decide
  obtain ⟨htw, hdw⟩ := takeWhile_app_stop fr hip hdot
  have htw2 := takeWhile_all hfr
  have hdw2 := dropWhile_all hfr
  simp only [pyFloatL, hsign, htw, hdw, htw2, hdw2]
  simp [pySignVal]

/-- Value and bounds of the float read of a two-digit-prefixed capture, the
shape produced by the region-plausibility pattern. -/
theorem pyFloat_two_digit {a b : Char} {d : List Char}
    (ha : isDigitC a = true) (hb : isDigitC b = true)
    (hd : ∀ c ∈ d, isDigitC c = true) :
    ∃ q, pyFloat? (String.mk (a :: b :: '.' :: d)) = some q ∧
      (digitsVal [a, b] : ℚ) ≤ q ∧ q < (digitsVal [a, b] : ℚ) + 1 := by
  have hws : ∀ c ∈ (a :: b :: '.' :: d), isWsC c = false := by
    intro c hcm
    simp only [List.mem_cons] at hcm
    rcases hcm with rfl | rfl | rfl | hcm
    · exact digit_not_ws ha
    · exact digit_not_ws hb
    · decide
    · exact digit_not_ws (hd _ hcm)
  have hkey := pyFloatL_digits [a, b] d (by simp) (by
    intro c hcm
    simp only [List.mem_cons] at hcm
    rcases hcm with rfl | rfl | hcm
    · exact ha
    · exact hb
    · exact absurd hcm (List.not_mem_nil c)) hd
  refine ⟨(digitsVal [a, b] : ℚ) + (digitsVal d : ℚ) / (10 : ℚ) ^ d.length, ?_, ?_, ?_⟩
  · rw [pyFloat?]
    rw [show (String.mk (a :: b :: '.' :: d)).data = a :: b :: '.' :: d from rfl]
    rw [stripL_noop hws]
    rw [show a :: b :: '.' :: d = [a, b] ++ '.' :: d from rfl]
    exact hkey
  · have h0 : (0 : ℚ) ≤ (digitsVal d : ℚ) / (10 : ℚ) ^ d.length :=
      div_nonneg (Nat.cast_nonneg _) (by positivity)
    linarith
  · have hlt : (digitsVal d : ℚ) < (10 : ℚ) ^ d.length := by
      exact_mod_cast digitsVal_lt hd
    have h1 : (digitsVal d : ℚ) / (10 : ℚ) ^ d.length < 1 :=
      (div_lt_one (by positivity)).mpr hlt
    linarith

/-- When the two DMS strategies fail and the map-embed strategy succeeds, the
orchestrator returns the embed pair. -/
theorem extract_m3 {soup : Soup} {p : String × String} (h1 : method1 soup = none)
    (h2 : method2 soup = none) (h3 : method3 soup = some p) :
    extract_coordinates_from_map soup = p := by
  unfold extract_coordinates_from_map
  rw [h1, h2, h3]

/-- When the first six strategies fail, the orchestrator's result is exactly
the region-fallback result, with the empty pair as the default. -/
theorem extract_m7 {soup : Soup} (h1 : method1 soup = none) (h2 : method2 soup = none)
    (h3 : method3 soup = none) (h4 : method4 soup = none) (h5 : method5 soup = none)
    (h6 : method6 soup = none) :
    extract_coordinates_from_map soup = (method7 soup).getD ("", "") := by
  unfold extract_coordinates_from_map
  rw [h1, h2, h3, h4, h5, h6]
  cases e : method7 soup <;> simp [e]

/-- Method 1 does not read the iframe list. -/
theorem method1_irf (soup : Soup) (l : List String) :
    method1 { soup with iframeSrcs := l } = method1 soup := rfl

/-- Method 2 does not read the iframe list. -/
theorem method2_irf (soup : Soup) (l : List String) :
    method2 { soup with iframeSrcs := l } = method2 soup := rfl

/-- Method 4 does not read the iframe list. -/
theorem method4_irf (soup : Soup) (l : List String) :
    method4 { soup with iframeSrcs := l } = method4 soup := rfl

/-- Method 5 does not read the iframe list. -/
theorem method5_irf (soup : Soup) (l : List String) :
    method5 { soup with iframeSrcs := l } = method5 soup := rfl

/-- Method 6 does not read the iframe list. -/
theorem method6_irf (soup : Soup) (l : List String) :
    method6 { soup with iframeSrcs := l } = method6 soup := rfl

/-- Method 7 does not read the iframe list. -/
theorem method7_irf (soup : Soup) (l : List String) :
    method7 { soup with iframeSrcs := l } = method7 soup := rfl

/-- Value and range of the float read of both components of a successful
region-pattern match. -/
theorem corfu_bounds {cs : List Char} {pr : String × String}
    (h : corfuAt cs = some pr) :
    ∃ qa qb, pyFloat? pr.1 = some qa ∧ pyFloat? pr.2 = some qb ∧
      39 ≤ qa ∧ qa < 40 ∧ 19 ≤ qb ∧ qb < 21 := by
  obtain ⟨⟨d1, hne1, hd1, e1⟩, ⟨d2, hne2, hd2, e2⟩⟩ := corfuAt_shape h
  obtain ⟨qa, ea, la1, la2⟩ :=
    pyFloat_two_digit (a := '3') (b := '9') (d := d1) (by decide) (by decide) hd1
  have h39 : digitsVal ['3', '9'] = 39 := by decide
  rcases e2 with e2 | e2
  · obtain ⟨qb, eb, lb1, lb2⟩ :=
      pyFloat_two_digit (a := '1') (b := '9') (d := d2) (by decide) (by decide) hd2
    have h19 : digitsVal ['1', '9'] = 19 := by decide
    rw [h39] at la1 la2
    rw [h19] at lb1 lb2
    refine ⟨qa, qb, ?_, ?_, ?_, ?_, ?_, ?_⟩
    · rw [e1]; exact ea
    · rw [e2]; exact eb
    · exact_mod_cast la1
    · have : ((39 : ℕ) : ℚ) + 1 = 40 := by norm_num
      linarith [la2, this]
    · exact_mod_cast lb1
    · have : ((19 : ℕ) : ℚ) + 1 = 20 := by norm_num
      linarith [lb2, this]
  · obtain ⟨qb, eb, lb1, lb2⟩ :=
      pyFloat_two_digit (a := '2') (b := '0') (d := d2) (by decide) (by decide) hd2
    have h20 : digitsVal ['2', '0'] = 20 := by decide
    rw [h39] at la1 la2
    rw [h20] at lb1 lb2
    refine ⟨qa, qb, ?_, ?_, ?_, ?_, ?_, ?_⟩
    · rw [e1]; exact ea
    · rw [e2]; exact eb
    · exact_mod_cast la1
    · have : ((39 : ℕ) : ℚ) + 1 = 40 := by norm_num
      linarith [la2, this]
    · have : ((20 : ℕ) : ℚ) = 20 := by norm_num
      linarith [lb1, this]
    · have : ((20 : ℕ) : ℚ) + 1 = 21 := by norm_num
      linarith [lb2, this]

/-- Evaluation of the converter on the spec's latitude vector, through the
anchored match and the seconds float parse. -/
theorem convert_lat_eval :
    convert_dms_to_decimal dmsLatStr = some (dmsDecimal 39 40 (227 / 10) 'N') := by
  have e1 : dmsMatch (stripL dmsLatStr.data) = some (39, 40, ['2', '2', '.', '7'], 'N') := by
    decide
  have e2 : pyFloatL ['2', '2', '.', '7'] = some (227 / 10) := by
    have h := pyFloatL_digits ['2', '2'] ['7'] (by simp) (by decide) (by decide)
    rw [show (['2', '2'] ++ '.' :: ['7']) = ['2', '2', '.', '7'] from rfl] at h
    rw [h, show digitsVal ['2', '2'] = 22 from by decide,
      show digitsVal ['7'] = 7 from by decide]
    norm_num
  unfold convert_dms_to_decimal
  simp only [e1, e2]

/-- Evaluation of the converter on the spec's longitude vector. -/
theorem convert_lon_eval :
    convert_dms_to_decimal dmsLonStr = some (dmsDecimal 19 42 (119 / 2) 'E') := by
  have e1 : dmsMatch (stripL dmsLonStr.data) = some (19, 42, ['5', '9', '.', '5'], 'E') := by
    decide
  have e2 : pyFloatL ['5', '9', '.', '5'] = some (119 / 2) := by
    have h := pyFloatL_digits ['5', '9'] ['5'] (by simp) (by decide) (by decide)
    rw [show (['5', '9'] ++ '.' :: ['5']) = ['5', '9', '.', '5'] from rfl] at h
    rw [h, show digitsVal ['5', '9'] = 59 from by decide,
      show digitsVal ['5'] = 5 from by decide]
    norm_num
  unfold convert_dms_to_decimal
  simp only [e1, e2]

/-- Evaluation of the converter on the out-of-range-minutes string. -/
theorem convert_badmin_eval :
    convert_dms_to_decimal dmsBadMinStr = some (dmsDecimal 39 75 10 'N') := by
  have e1 : dmsMatch (stripL dmsBadMinStr.data) = some (39, 75, ['1', '0', '.', '0'], 'N') := by
    decide
  have e2 : pyFloatL ['1', '0', '.', '0'] = some 10 := by
    have h := pyFloatL_digits ['1', '0'] ['0'] (by simp) (by decide) (by decide)
    rw [show (['1', '0'] ++ '.' :: ['0']) = ['1', '0', '.', '0'] from rfl] at h
    rw [h, show digitsVal ['1', '0'] = 10 from by decide,
      show digitsVal ['0'] = 0 from by decide]
    norm_num
  unfold convert_dms_to_decimal
  simp only [e1, e2]

/-- Unfolding of the conversion core on a hemisphere that negates. -/
theorem dmsDecimal_neg (d m : ℕ) (s : ℚ) {c : Char} (hc : c = 'S' ∨ c = 'W') :
    dmsDecimal d m s c = -((d : ℚ) + (m : ℚ) / 60 + s / 3600) := by
  unfold dmsDecimal
  rw [if_pos hc]

/-- Unfolding of the conversion core on a hemisphere that keeps the sign. -/
theorem dmsDecimal_pos (d m : ℕ) (s : ℚ) {c : Char} (hc : ¬(c = 'S' ∨ c = 'W')) :
    dmsDecimal d m s c = (d : ℚ) + (m : ℚ) / 60 + s / 3600 := by
  unfold dmsDecimal
  rw [if_neg hc]

/-- C1 (counterexample): on a document carrying both a valid JSON-LD geo block
and a Google-Maps embed URL with different coordinates, the orchestrator
returns the embed pair, not the JSON-LD pair — the embed strategy runs before
the structured-data strategy, contradicting the claimed priority. -/
theorem claim1_counterexample :
    method3 soupPriority = some ("39.5014", "19.8435") ∧
    method4 soupPriority = some ("39.6243", "19.9217") ∧
    extract_coordinates_from_map soupPriority = ("39.5014", "19.8435") ∧
    extract_coordinates_from_map soupPriority ≠ ("39.6243", "19.9217") :=
  ⟨rfl, rfl, rfl, by decide⟩

/-- C1 (amended): when the two DMS strategies find nothing and the map-embed
strategy yields a pair, the orchestrator returns that embed pair — embed-URL
parsing outranks JSON-LD structured data in the code's priority order. -/
theorem claim1_amended {soup : Soup} {p : String × String} (h1 : method1 soup = none)
    (h2 : method2 soup = none) (h3 : method3 soup = some p) :
    extract_coordinates_from_map soup = p :=
  extract_m3 h1 h2 h3

/-- C1 (witness): the amended priority instantiated on the synthetic
two-signal document. -/
theorem claim1_amended_witness :
    extract_coordinates_from_map soupPriority = ("39.5014", "19.8435") :=
  claim1_amended rfl rfl rfl

/-- C2: the orchestrator equals the first-success fold of its seven strategies
in the fixed source order (DMS text, DMS elements, map-embed, script and
structured data, data attributes, meta tags, region fallback), with the
empty-pair sentinel when all seven fail; the embedding is total, so no
exception reaches the caller. -/
theorem claim2_chain (soup : Soup) :
    extract_coordinates_from_map soup =
      (firstSome (fun st => st soup) strategyList).getD ("", "") := by
  unfold extract_coordinates_from_map strategyList
  cases e1 : method1 soup with
  | some p => simp [firstSome, e1]
  | none =>
    cases e2 : method2 soup with
    | some p => simp [firstSome, e1, e2]
    | none =>
      cases e3 : method3 soup with
      | some p => simp [firstSome, e1, e2, e3]
      | none =>
        cases e4 : method4 soup with
        | some p => simp [firstSome, e1, e2, e3, e4]
        | none =>
          cases e5 : method5 soup with
          | some p => simp [firstSome, e1, e2, e3, e4, e5]
          | none =>
            cases e6 : method6 soup with
            | some p => simp [firstSome, e1, e2, e3, e4, e5, e6]
            | none =>
              cases e7 : method7 soup with
              | some p => simp [firstSome, e1, e2, e3, e4, e5, e6, e7]
              | none => simp [firstSome, e1, e2, e3, e4, e5, e6, e7]

/-- C3: the converter computes degrees + minutes/60 + seconds/3600 on the two
spec vectors, and the values are within 1e-4 of 39.672972 and 19.716528. -/
theorem claim3_vectors :
    convert_dms_to_decimal dmsLatStr = some ((39 : ℚ) + 40 / 60 + 22.7 / 3600) ∧
    convert_dms_to_decimal dmsLonStr = some ((19 : ℚ) + 42 / 60 + 59.5 / 3600) ∧
    (∃ q, convert_dms_to_decimal dmsLatStr = some q ∧ |q - 39.672972| ≤ 1e-4) ∧
    (∃ q, convert_dms_to_decimal dmsLonStr = some q ∧ |q - 19.716528| ≤ 1e-4) := by
  have el : convert_dms_to_decimal dmsLatStr =
      some ((39 : ℚ) + (40 : ℚ) / 60 + (227 / 10 : ℚ) / 3600) := by
    rw [convert_lat_eval, dmsDecimal_pos 39 40 (227 / 10) (by decide)]
    norm_num
  have eo : convert_dms_to_decimal dmsLonStr =
      some ((19 : ℚ) + (42 : ℚ) / 60 + (119 / 2 : ℚ) / 3600) := by
    rw [convert_lon_eval, dmsDecimal_pos 19 42 (119 / 2) (by decide)]
    norm_num
  refine ⟨?_, ?_, ⟨_, el, ?_⟩, ⟨_, eo, ?_⟩⟩
  · rw [el]; norm_num
  · rw [eo]; norm_num
  · rw [abs_le]; constructor <;> norm_num
  · rw [abs_le]; constructor <;> norm_num

/-- C4: the converter yields no value on malformed DMS input — any string with
no hemisphere letter at all, the given no-hemisphere and bad-seconds vectors,
and the empty string — and, being total, never propagates an exception. -/
theorem claim4_malformed :
    (∀ s : String, (∀ c ∈ s.data, ¬(c = 'N' ∨ c = 'S' ∨ c = 'E' ∨ c = 'W')) →
      convert_dms_to_decimal s = none) ∧
    convert_dms_to_decimal dmsNoHemStr = none ∧
    convert_dms_to_decimal dmsBadSecStr = none ∧
    convert_dms_to_decimal "" = none := by
  refine ⟨?_, by decide, by decide, by decide⟩
  intro s hs
  unfold convert_dms_to_decimal
  cases e : dmsMatch (stripL s.data) with
  | none => rfl
  | some v =>
    obtain ⟨d, m, ss, hc⟩ := v
    obtain ⟨hmem, hdisj⟩ := dmsMatch_hem e
    exact absurd hdisj (hs hc (mem_stripL hmem))

/-- C4 (witness): the hemisphere-free conjunct applied to a concrete string. -/
theorem claim4_malformed_witness : convert_dms_to_decimal "39 40 22.7" = none :=
  claim4_malformed.1 "39 40 22.7" (by decide)

/-- C5 (counterexample): the DMS string with minutes 75 is not discarded — the
converter yields a value for it rather than no value. -/
theorem claim5_counterexample : convert_dms_to_decimal dmsBadMinStr ≠ none := by
  rw [convert_badmin_eval]
  simp

/-- C5 (amended): the converter applies the formula to an out-of-range minute
value without any 0-59 validation: minutes 75 yields 39 + 75/60 + 10/3600. -/
theorem claim5_amended :
    convert_dms_to_decimal dmsBadMinStr = some ((39 : ℚ) + 75 / 60 + 10 / 3600) := by
  rw [convert_badmin_eval, dmsDecimal_pos 39 75 10 (by decide)]
  norm_num

/-- C6: when the six earlier strategies yield nothing, the orchestrator
returns exactly the region-fallback result (the pair when the scan finds a
plausible one, the empty pair otherwise); concretely, an in-box script pair is
returned, an out-of-box one gives the absent sentinel, and with several pairs
the first plausible one in scan order wins. -/
theorem claim6_region (soup : Soup) (h1 : method1 soup = none) (h2 : method2 soup = none)
    (h3 : method3 soup = none) (h4 : method4 soup = none) (h5 : method5 soup = none)
    (h6 : method6 soup = none) :
    (∀ p, method7 soup = some p → extract_coordinates_from_map soup = p) ∧
    (method7 soup = none → extract_coordinates_from_map soup = ("", "")) ∧
    extract_coordinates_from_map soupBoxIn = ("39.71", "19.93") ∧
    extract_coordinates_from_map soupBoxOut = ("", "") ∧
    extract_coordinates_from_map soupMulti = ("39.71", "19.93") := by
  refine ⟨?_, ?_, rfl, rfl, rfl⟩
  · intro p hp
    rw [extract_m7 h1 h2 h3 h4 h5 h6, hp]
    rfl
  · intro hp
    rw [extract_m7 h1 h2 h3 h4 h5 h6, hp]
    rfl

/-- C6 (witness): the fallback clause applied to the in-box document. -/
theorem claim6_region_witness :
    extract_coordinates_from_map soupBoxIn = ("39.71", "19.93") :=
  (claim6_region soupBoxIn rfl rfl rfl rfl rfl rfl).1 _ rfl

/-- C7 (counterexample): a data-map attribute holding a JSON array whose first
entry is the empty string makes the orchestrator return a partial pair — an
empty latitude next to a nonempty longitude. -/
theorem claim7_counterexample :
    (extract_coordinates_from_map soupDataMap).1 = "" ∧
    (extract_coordinates_from_map soupDataMap).2 = "19.84" ∧
    (extract_coordinates_from_map soupDataMap).2 ≠ "" :=
  ⟨rfl, rfl, by decide⟩

/-- C7 (amended): on every document without data-map attributes, the
orchestrator returns either a pair with both components nonempty or the
empty-pair sentinel — only the data-map JSON path can produce a partial
pair. -/
theorem claim7_amended (soup : Soup) (hdm : soup.dataMapAttrs = []) :
    ((extract_coordinates_from_map soup).1 ≠ "" ∧
      (extract_coordinates_from_map soup).2 ≠ "") ∨
      extract_coordinates_from_map soup = ("", "") := by
  unfold extract_coordinates_from_map
  cases e1 : method1 soup with
  | some p => exact Or.inl (method1_ne e1)
  | none =>
    cases e2 : method2 soup with
    | some p => exact Or.inl (method2_ne e2)
    | none =>
      cases e3 : method3 soup with
      | some p => exact Or.inl (method3_ne e3)
      | none =>
        cases e4 : method4 soup with
        | some p => exact Or.inl (method4_ne e4)
        | none =>
          cases e5 : method5 soup with
          | some p => exact Or.inl (method5_ne hdm e5)
          | none =>
            cases e6 : method6 soup with
            | some p => exact Or.inl (method6_ne e6)
            | none =>
              cases e7 : method7 soup with
              | some p => exact Or.inl (method7_ne e7)
              | none => exact Or.inr rfl

/-- C7 (witness): the amended invariant on the two-signal document. -/
theorem claim7_amended_witness :
    ((extract_coordinates_from_map soupPriority).1 ≠ "" ∧
      (extract_coordinates_from_map soupPriority).2 ≠ "") ∨
      extract_coordinates_from_map soupPriority = ("", "") :=
  claim7_amended soupPriority rfl

/-- C8 (counterexample): an embed URL `?q=500,500` makes the orchestrator
return latitude 500, far outside [-90, 90] — no range validation exists on
that path. -/
theorem claim8_counterexample :
    extract_coordinates_from_map soupQ500 = ("500", "500") ∧
    pyFloat? "500" = some 500 ∧ ¬((500 : ℚ) ≤ 90) := by
  refine ⟨rfl, ?_, by norm_num⟩
  have e : pyFloat? "500" = some (pySignVal false * (digitsVal ['5', '0', '0'] : ℚ)) := rfl
  rw [e, show digitsVal ['5', '0', '0'] = 500 from by decide]
  norm_num [pySignVal]

/-- C8 (amended): every pair produced by the region-plausibility fallback is a
valid coordinate pair — its components read as decimals in [39, 40) and
[19, 21), hence within [-90, 90] and [-180, 180]. -/
theorem claim8_amended (soup : Soup) (la lo : String) (h : method7 soup = some (la, lo)) :
    ∃ qa qb, pyFloat? la = some qa ∧ pyFloat? lo = some qb ∧
      -90 ≤ qa ∧ qa ≤ 90 ∧ -180 ≤ qb ∧ qb ≤ 180 := by
  have key : ∃ qa qb, pyFloat? la = some qa ∧ pyFloat? lo = some qb ∧
      39 ≤ qa ∧ qa < 40 ∧ 19 ≤ qb ∧ qb < 21 := by
    refine firstSome_imp
      (P := fun pr : String × String => ∃ qa qb, pyFloat? pr.1 = some qa ∧
        pyFloat? pr.2 = some qb ∧ 39 ≤ qa ∧ qa < 40 ∧ 19 ≤ qb ∧ qb < 21)
      (fun s r hs => ?_) _ _ h
    split at hs
    · exact Option.noConfusion hs
    · exact searchSome_imp (fun cs g hg => corfu_bounds hg) _ _ hs
  obtain ⟨qa, qb, ea, eb, b1, b2, b3, b4⟩ := key
  exact ⟨qa, qb, ea, eb, by linarith, by linarith, by linarith, by linarith⟩

/-- C8 (witness): the amended range fact on the in-box document. -/
theorem claim8_amended_witness :
    ∃ qa qb, pyFloat? "39.71" = some qa ∧ pyFloat? "19.93" = some qb ∧
      -90 ≤ qa ∧ qa ≤ 90 ∧ -180 ≤ qb ∧ qb ≤ 180 :=
  claim8_amended soupBoxIn "39.71" "19.93" rfl

/-- C9 (counterexample): at degrees = minutes = seconds = 0 the conversion
core returns 0 for every hemisphere, so the south value is not negative and
the north value is not positive, refuting the sign claim for all valid
inputs. -/
theorem claim9_counterexample :
    dmsDecimal 0 0 0 'S' = 0 ∧ ¬(dmsDecimal 0 0 0 'S' < 0) ∧
      ¬(0 < dmsDecimal 0 0 0 'N') := by
  have eS : dmsDecimal 0 0 0 'S' = 0 := by
    rw [dmsDecimal_neg 0 0 0 (Or.inl rfl)]
    norm_num
  have eN : dmsDecimal 0 0 0 'N' = 0 := by
    rw [dmsDecimal_pos 0 0 0 (by decide)]
    norm_num
  refine ⟨eS, ?_, ?_⟩
  · rw [eS]; exact lt_irrefl 0
  · rw [eN]; exact lt_irrefl 0

/-- C9 (amended): for every valid degrees/minutes/seconds combination whose
total magnitude is nonzero, the conversion core is negative for S and W and
positive for N and E. -/
theorem claim9_amended (d m : ℕ) (s : ℚ) (_h0 : 0 ≤ s)
    (hpos : 0 < (d : ℚ) + (m : ℚ) / 60 + s / 3600) :
    dmsDecimal d m s 'S' < 0 ∧ dmsDecimal d m s 'W' < 0 ∧
      0 < dmsDecimal d m s 'N' ∧ 0 < dmsDecimal d m s 'E' := by
  refine ⟨?_, ?_, ?_, ?_⟩
  · rw [dmsDecimal_neg d m s (Or.inl rfl)]; linarith
  · rw [dmsDecimal_neg d m s (Or.inr rfl)]; linarith
  · rw [dmsDecimal_pos d m s (by decide)]; exact hpos
  · rw [dmsDecimal_pos d m s (by decide)]; exact hpos

/-- C9 (witness): the sign facts at 39 degrees 40 minutes 22.7 seconds. -/
theorem claim9_amended_witness :
    dmsDecimal 39 40 (227 / 10) 'S' < 0 ∧ dmsDecimal 39 40 (227 / 10) 'W' < 0 ∧
      0 < dmsDecimal 39 40 (227 / 10) 'N' ∧ 0 < dmsDecimal 39 40 (227 / 10) 'E' :=
  claim9_amended 39 40 (227 / 10) (by norm_num) (by norm_num)

/-- C10: the map-embed strategy inspects only iframe sources containing one of
the two Google-Maps substrings: on a document none of whose iframe sources
contains either, the strategy yields nothing and the orchestrator behaves
exactly as on the same document with no iframes at all. -/
theorem claim10_google_gate (soup : Soup)
    (h : ∀ src ∈ soup.iframeSrcs, containsSub googleMapsLit src.data = false ∧
      containsSub mapsGoogleLit src.data = false) :
    method3 soup = none ∧
    extract_coordinates_from_map soup =
      extract_coordinates_from_map { soup with iframeSrcs := [] } := by
  have e3 : method3 soup = none := by
    refine firstSome_none fun src hs => ?_
    obtain ⟨ha, hb⟩ := h src hs
    simp [iframeScan, ha, hb]
  have e3' : method3 { soup with iframeSrcs := [] } = none := rfl
  refine ⟨e3, ?_⟩
  unfold extract_coordinates_from_map
  rw [e3, e3']
  exact rfl

/-- C10 (witness): the gate applied to a non-Google embed URL matching the
`?q=` convention. -/
theorem claim10_google_gate_witness :
    method3 soupNonGoogle = none ∧
    extract_coordinates_from_map soupNonGoogle =
      extract_coordinates_from_map { soupNonGoogle with iframeSrcs := [] } :=
  claim10_google_gate soupNonGoogle (by decide)

end Greeka
